import Mathlib

/-
Verification of the line-protocol engine of `snapshot.cmd.by.VTSTech.py`
(a Minecraft server wrapper: chat-command dispatch, home/warp records,
teleport-consent tracking).

Shallow embedding conventions:
  * Python dicts are embedded as association lists `List (String × v)`
    with lookup = first occurrence, assignment = replace-or-append,
    `pop`/`del` = removal of the key.  Python guarantees no duplicate
    keys, so theorems about dict iteration carry a `Nodup` hypothesis on
    the key list where it matters.
  * Python sets of strings are embedded as `List String` with
    add-if-absent and removal by filtering.
  * `time.time()` values are embedded as integers (`Int`): the code
    only stores timestamps and compares their differences against the
    integer constants of `CONFIG`, so integer time units preserve every
    ordering case (younger / exactly at the bound / older).
  * `random.randint` results reaching `cmd_rtp` are passed in as
    explicit integer parameters.
  * Side effects (`server.execute`, `send_message`, saving the CSV
    files) are reified as an `Effect` list returned next to the new
    state.  `send_message player text` stands for
    `execute("tellraw player ...text...")`; the tellraw JSON wrapper is
    cosmetic and uniform, so messages are modelled at the
    (player, text) level.
  * The two regular expressions of `handle_output` are embedded as
    deterministic matchers.  Both patterns are backtracking-free: every
    greedy piece (`[^>]+`, `\w+`, `\s+`, `\d+`, `\d*`, `.*`) is
    followed either by a character its class cannot match or by an
    unconditionally succeeding tail, so maximal-munch scanning from
    each start position, leftmost position first, is exactly Python's
    `re.search` semantics for these two patterns.  Character classes
    (`\w`, `\s`, `\d`) are taken at their ASCII meaning, which covers
    the identifier/number vocabulary these log lines use.
-/

/-! ## Python string primitives -/

/-- ASCII view of Python's `\w` word-character class. -/
def isWordChar (c : Char) : Bool := c.isAlphanum || c = '_'

/-- ASCII view of Python's `\s` whitespace class. -/
def isSpaceChar (c : Char) : Bool :=
  c = ' ' || c = '\t' || c = '\n' || c = '\r' || c = '\x0b' || c = '\x0c'

/-- One step of whitespace tokenisation, used to embed Python's
no-argument `str.split()`. -/
def splitStep (c : Char) (acc : List (List Char)) : List (List Char) :=
  if isSpaceChar c then [] :: acc
  else
    match acc with
    | [] => [[c]]
    | w :: ws => (c :: w) :: ws

/-- Python `str.split()` (no separator): split on runs of whitespace,
dropping empty fields. -/
def pySplit (s : String) : List String :=
  ((s.data.foldr splitStep []).filter (fun w => ¬ w.isEmpty)).map List.asString

/-- ASCII lowering of one character, embedding `str.lower` on the
ASCII range used by warp names in the source. -/
def lowerChar (c : Char) : Char :=
  if 'A' ≤ c ∧ c ≤ 'Z' then Char.ofNat (c.toNat + 32) else c

/-- Python `str.lower()` (ASCII range). -/
def pyLower (s : String) : String := ⟨s.data.map lowerChar⟩

/-! ## The two `handle_output` regular expressions -/

/-- Consume an exact literal from the head of the input. -/
def eatLit : List Char → List Char → Option (List Char)
  | [], cs => some cs
  | _ :: _, [] => none
  | l :: ls, c :: cs => if c = l then eatLit ls cs else none

/-- Match attempt for `<([^>]+)> \.(\w+)(?:\s+(.*))?` anchored at the
start of the given suffix: returns `(player, command, args_str?)`. -/
def chatMatchAt : List Char → Option (String × String × Option String)
  | '<' :: rest =>
    let ps := rest.span (fun c => c ≠ '>')
    if ps.1.isEmpty then none
    else
      match ps.2 with
      | '>' :: ' ' :: '.' :: rest2 =>
        let ws := rest2.span isWordChar
        if ws.1.isEmpty then none
        else
          match ws.2 with
          | [] => some (ps.1.asString, ws.1.asString, none)
          | c :: _ =>
            if isSpaceChar c then
              let tail := ws.2.dropWhile isSpaceChar
              some (ps.1.asString, ws.1.asString,
                some (tail.takeWhile (fun d => d ≠ '\n')).asString)
            else some (ps.1.asString, ws.1.asString, none)
      | _ => none
  | _ => none

/-- Match attempt for one coordinate `(-?\d+\.?\d*)d` anchored at the
start of the suffix; returns the captured group (without the trailing
`d`) and the remaining input. -/
def numAt (cs : List Char) : Option (String × List Char) :=
  let sg : String × List Char :=
    match cs with
    | '-' :: t => ("-", t)
    | _ => ("", cs)
  let ds := sg.2.span Char.isDigit
  if ds.1.isEmpty then none
  else
    match ds.2 with
    | '.' :: cs3 =>
      let ds2 := cs3.span Char.isDigit
      match ds2.2 with
      | 'd' :: cs5 => some (sg.1 ++ ds.1.asString ++ "." ++ ds2.1.asString, cs5)
      | _ => none
    | 'd' :: cs5 => some (sg.1 ++ ds.1.asString, cs5)
    | _ => none

/-- Match attempt for
`(\w+) has the following entity data: \[(-?\d+\.?\d*)d, (-?\d+\.?\d*)d, (-?\d+\.?\d*)d\]`
anchored at the start of the suffix: returns `(player, x, y, z)`. -/
def posMatchAt (cs : List Char) : Option (String × String × String × String) :=
  let ws := cs.span isWordChar
  if ws.1.isEmpty then none
  else
    match eatLit " has the following entity data: [".data ws.2 with
    | none => none
    | some r1 =>
      match numAt r1 with
      | none => none
      | some (x, r2) =>
        match eatLit ", ".data r2 with
        | none => none
        | some r3 =>
          match numAt r3 with
          | none => none
          | some (y, r4) =>
            match eatLit ", ".data r4 with
            | none => none
            | some r5 =>
              match numAt r5 with
              | none => none
              | some (z, r6) =>
                match r6 with
                | ']' :: _ => some (ws.1.asString, x, y, z)
                | _ => none

/-- `re.search`: try the pattern at every start position, leftmost
first. -/
def reSearch {α : Type} (m : List Char → Option α) : List Char → Option α
  | [] => m []
  | c :: cs =>
    match m (c :: cs) with
    | some r => some r
    | none => reSearch m cs

/-- `re.search` of the chat-command pattern over a whole line. -/
def searchChat (line : String) : Option (String × String × Option String) :=
  reSearch chatMatchAt line.data

/-- `re.search` of the position-response pattern over a whole line. -/
def searchPos (line : String) : Option (String × String × String × String) :=
  reSearch posMatchAt line.data

/-! ## The output classifier -/

/-- A structured event produced from one log line by `handle_output`. -/
inductive Event where
  | chatCommand (player command : String) (args : List String)
  | positionResponse (player x y z : String)
  deriving DecidableEq, Repr

/-- `args_str.split() if args_str else []` from line 60: the argument
list derived from the optional third regex group. -/
def pyArgs : Option String → List String
  | none => []
  | some s => if s.isEmpty then [] else pySplit s

/-- Event extraction of `handle_output` (lines 58–84): the chat-command
pattern and the position-response pattern are tested by two independent
`if` statements, in that order, each contributing at most one event
(`re.search` yields at most one match). -/
def classify (line : String) : List Event :=
  (match searchChat line with
    | some (p, c, a) => [Event.chatCommand p c (pyArgs a)]
    | none => []) ++
  (match searchPos line with
    | some (p, x, y, z) => [Event.positionResponse p x y z]
    | none => [])

/-! ## Association-list embedding of Python dicts -/

/-- Dict lookup: first entry with the given key. -/
def alookup {v : Type} (k : String) : List (String × v) → Option v
  | [] => none
  | p :: l => if p.1 = k then some p.2 else alookup k l

/-- Dict assignment `d[k] = x`: replace the entry in place, else
append. -/
def aset {v : Type} (k : String) (x : v) : List (String × v) → List (String × v)
  | [] => [(k, x)]
  | p :: l => if p.1 = k then (k, x) :: l else p :: aset k x l

/-- Dict removal `d.pop(k)` / `del d[k]`. -/
def aerase {v : Type} (k : String) (l : List (String × v)) : List (String × v) :=
  l.filter (fun p => p.1 ≠ k)

/-- Set insertion `s.add(x)` (no duplicates). -/
def sadd (x : String) (s : List String) : List String :=
  if x ∈ s then s else s ++ [x]

/-- Set removal `s.remove(x)`. -/
def sremove (x : String) (s : List String) : List String :=
  s.filter (fun y => y ≠ x)

/-! ## Configuration constants (the `CONFIG` dict) -/

/-- `CONFIG["spawn_point"]`. -/
def spawn_point : String := "0 64 -3"

/-- `CONFIG["rtp_radius"]`. -/
def rtp_radius : Int := 35000

/-- `CONFIG["tpa_timeout"]`. -/
def tpa_timeout : Int := 30

/-- The `asyncio.sleep(10)` period of `check_tpa_timeouts`. -/
def sweep_interval : Int := 10

/-! ## Command-handler state and effects -/

/-- The mutable state owned by `CommandHandler`: `homes`, `warps`,
`pending_homes`, `pending_warps`, `tpa_requests`.  Coordinates are the
space-joined strings the code stores; TPA entries map a target to
`(requester, timestamp)`. -/
structure CHState where
  homes : List (String × String)
  warps : List (String × String)
  pending_homes : List String
  pending_warps : List (String × String)
  tpa_requests : List (String × (String × Int))
  deriving DecidableEq, Repr

/-- Observable side effects: a raw command written to the server's
stdin (`server.execute`), a chat message (`send_message`), and the two
CSV persistence calls. -/
inductive Effect where
  | exec (cmd : String)
  | msg (player text : String)
  | saveHomes
  | saveWarps
  deriving DecidableEq, Repr

/-! ## The position-response branch of `handle_output` (lines 65–84) -/

/-- State update performed when the position-response pattern matched:
the home track (`pending_homes`) is tested first; `elif` the warp track
(`pending_warps`); otherwise nothing happens. -/
def handlePosition (st : CHState) (player x y z : String) : CHState × List Effect :=
  if player ∈ st.pending_homes then
    ({ st with
        homes := aset player (x ++ " " ++ y ++ " " ++ z) st.homes,
        pending_homes := sremove player st.pending_homes },
      [Effect.saveHomes,
       Effect.msg player ("§aHome set at §eX:" ++ x ++ " §aY:" ++ y ++ " §aZ:" ++ z)])
  else
    match alookup player st.pending_warps with
    | some warp_name =>
      ({ st with
          warps := aset warp_name (x ++ " " ++ y ++ " " ++ z) st.warps,
          pending_warps := aerase player st.pending_warps },
        [Effect.saveWarps,
         Effect.msg player ("§aWarp '" ++ warp_name ++ "' set at §eX:" ++ x ++ " §aY:" ++ y ++ " §aZ:" ++ z)])
    | none => (st, [])

/-! ## TPA commands (lines 203–243) -/

/-- `cmd_tpa(self, player, *args)`. -/
def cmd_tpa (st : CHState) (player : String) (args : List String) (now : Int) :
    CHState × List Effect :=
  match args with
  | [] => (st, [Effect.msg player "§cUsage: .tpa <player>"])
  | target :: _ =>
    if target = player then
      (st, [Effect.msg player "§cYou cannot teleport to yourself!"])
    else
      match alookup target st.tpa_requests with
      | some (existing_requester, _) =>
        if existing_requester = player then
          (st, [Effect.msg player ("§cYou already have a pending request to " ++ target ++ "!")])
        else
          ({ st with tpa_requests := aset target (player, now) st.tpa_requests },
            [Effect.msg player ("§aTeleport request sent to " ++ target ++ "!"),
             Effect.msg target ("§e" ++ player ++ " §ahas requested to teleport to you. Use §e.tpaccept §aor §e.tpdeny")])
      | none =>
        ({ st with tpa_requests := aset target (player, now) st.tpa_requests },
          [Effect.msg player ("§aTeleport request sent to " ++ target ++ "!"),
           Effect.msg target ("§e" ++ player ++ " §ahas requested to teleport to you. Use §e.tpaccept §aor §e.tpdeny")])

/-- `cmd_tpaccept(self, player)`. -/
def cmd_tpaccept (st : CHState) (player : String) : CHState × List Effect :=
  match alookup player st.tpa_requests with
  | none => (st, [Effect.msg player "§cNo pending teleport requests!"])
  | some (requester, _) =>
    ({ st with tpa_requests := aerase player st.tpa_requests },
      [Effect.exec ("tp " ++ requester ++ " " ++ player),
       Effect.msg player ("§aAccepted " ++ requester ++ "'s teleport request!"),
       Effect.msg requester ("§e" ++ player ++ " §ahas accepted your teleport request!")])

/-- `cmd_tpdeny(self, player)`. -/
def cmd_tpdeny (st : CHState) (player : String) : CHState × List Effect :=
  match alookup player st.tpa_requests with
  | none => (st, [Effect.msg player "§cNo pending teleport requests!"])
  | some (requester, _) =>
    ({ st with tpa_requests := aerase player st.tpa_requests },
      [Effect.msg player ("§cDenied " ++ requester ++ "'s teleport request!"),
       Effect.msg requester ("§e" ++ player ++ " §cdenied your teleport request!")])

/-! ## TPA timeout sweep (lines 121–133) -/

/-- Expiry condition of one stored request at time `now`:
`current_time - timestamp > CONFIG["tpa_timeout"]`. -/
def tpaExpired (now : Int) (r : String × (String × Int)) : Bool :=
  now - r.2.2 > tpa_timeout

/-- Processing of one expired target inside the removal loop:
`requester, _ = self.tpa_requests.pop(target)` followed by the two
expiry notices.  (Python's `pop` on a dict always finds the key here,
since keys are unique and the target came from the same dict; the
`none` branch is unreachable under that invariant.) -/
def sweepStep (acc : List (String × (String × Int)) × List Effect) (target : String) :
    List (String × (String × Int)) × List Effect :=
  match alookup target acc.1 with
  | some (requester, _) =>
    (aerase target acc.1,
      acc.2 ++
        [Effect.msg requester ("§cYour TPA request to " ++ target ++ " has expired."),
         Effect.msg target ("§cTPA request from " ++ requester ++ " has expired.")])
  | none => acc

/-- One iteration of the `check_tpa_timeouts` loop body at time `now`:
collect the expired targets, then pop each and notify both parties. -/
def check_tpa_timeouts_once (reqs : List (String × (String × Int))) (now : Int) :
    List (String × (String × Int)) × List Effect :=
  ((reqs.filter (tpaExpired now)).map Prod.fst).foldl sweepStep (reqs, [])

/-! ## Warp persistence (lines 160–189) -/

/-- `save_warps` (lines 177–189), abstracted to the list of CSV rows it
writes: each stored warp becomes a `[name, x, y, z]` row, except that
the `spawn` entry is skipped when it still equals the configured
default.  `none` embeds the `ValueError` of `x, y, z = pos.split()`
when a stored position does not split into exactly three fields (the
exception is caught and logged; no complete file is produced). -/
def save_warps_rows : List (String × String) → Option (List (List String))
  | [] => some []
  | (name, pos) :: rest =>
    if name = "spawn" ∧ pos = spawn_point then save_warps_rows rest
    else
      match pySplit pos with
      | [x, y, z] => (save_warps_rows rest).map (fun rs => [name, x, y, z] :: rs)
      | _ => none

/-- The row-reading loop of `load_warps` (lines 164–169): rows of
length 4 are stored under the lower-cased name; other rows are
skipped. -/
def loadRow (acc : List (String × String)) (row : List String) :
    List (String × String) :=
  match row with
  | [name, x, y, z] => aset (pyLower name) (x ++ " " ++ y ++ " " ++ z) acc
  | _ => acc

/-- The whole row loop. -/
def loadRowsInto (rows : List (List String)) (acc : List (String × String)) :
    List (String × String) :=
  rows.foldl loadRow acc

/-- `load_warps` (lines 160–175) applied to a row list, starting from
the empty dict `self.warps` holds at startup: read the rows, then
re-supply the reserved `spawn` entry with the configured default when
absent. -/
def load_warps_from (rows : List (List String)) : List (String × String) :=
  match alookup "spawn" (loadRowsInto rows []) with
  | none => aset "spawn" spawn_point (loadRowsInto rows [])
  | some _ => loadRowsInto rows []

/-! ## Remaining commands (lines 246–318) -/

/-- `cmd_sethome(self, player)`. -/
def cmd_sethome (st : CHState) (player : String) : CHState × List Effect :=
  ({ st with pending_homes := sadd player st.pending_homes },
    [Effect.exec ("data get entity " ++ player ++ " Pos"),
     Effect.msg player "§aScanning your position..."])

/-- `cmd_home(self, player)`. -/
def cmd_home (st : CHState) (player : String) : CHState × List Effect :=
  match alookup player st.homes with
  | some pos =>
    (st, [Effect.exec ("tp " ++ player ++ " " ++ pos),
          Effect.msg player "§aTeleported to home!"])
  | none => (st, [Effect.msg player "§cHome not set! Use .sethome"])

/-- `cmd_setwarp(self, player, *args)`. -/
def cmd_setwarp (st : CHState) (player : String) (args : List String) :
    CHState × List Effect :=
  match args with
  | [] => (st, [Effect.msg player "§cUsage: .setwarp <name>"])
  | a :: _ =>
    let warp_name := pyLower a
    ({ st with pending_warps := aset player warp_name st.pending_warps },
      [Effect.exec ("data get entity " ++ player ++ " Pos"),
       Effect.msg player ("§aScanning position for warp '" ++ warp_name ++ "'...")])

/-- `cmd_warp(self, player, *args)`. -/
def cmd_warp (st : CHState) (player : String) (args : List String) :
    CHState × List Effect :=
  match args with
  | [] => (st, [Effect.msg player "§cUsage: .warp <name>"])
  | a :: _ =>
    let warp_name := pyLower a
    match alookup warp_name st.warps with
    | some pos =>
      (st, [Effect.exec ("tp " ++ player ++ " " ++ pos),
            Effect.msg player ("§aTeleported to warp '" ++ warp_name ++ "'!")])
    | none => (st, [Effect.msg player ("§cWarp '" ++ warp_name ++ "' not found!")])

/-- `cmd_warps(self, player)`. -/
def cmd_warps (st : CHState) (player : String) : CHState × List Effect :=
  (st, [Effect.msg player ("§aAvailable warps: §e" ++
    String.intercalate ", " (st.warps.map (fun p => p.1)))])

/-- `cmd_spawn(self, player)`: `self.warps['spawn']` raises `KeyError`
when the key is absent, embedded as the error case. -/
def cmd_spawn (st : CHState) (player : String) :
    Except String (CHState × List Effect) :=
  match alookup "spawn" st.warps with
  | some pos =>
    .ok (st, [Effect.exec ("tp " ++ player ++ " " ++ pos),
              Effect.msg player "§aTeleported to spawn!"])
  | none => .error "'spawn'"

/-- `cmd_rtp(self, player)`, with the two `random.randint` draws passed
in as `rx`, `rz`. -/
def cmd_rtp (st : CHState) (player : String) (rx rz : Int) : CHState × List Effect :=
  (st, [Effect.exec ("spreadplayers " ++ toString rx ++ " " ++ toString rz ++
          " 0 100 false " ++ player),
        Effect.msg player ("§aRandom teleported! §e(X: " ++ toString rx ++
          ", Z: " ++ toString rz ++ ")")])

/-- The static help text of `cmd_help`. -/
def helpText : String :=
  "\"=== Server Commands ===, .spawn - Teleport to spawn, .sethome - Set home, " ++
  ".home - Teleport home, .setwarp <name> - Set warp, .warp <name> - Teleport to warp, " ++
  ".warps - List warps, .rtp - Random teleport, .tpa <player> - Request teleport, " ++
  ".tpaccept - Accept teleport request, .tpdeny - Deny teleport request, " ++
  ".help - Show this menu\""

/-- `cmd_help(self, player)`. -/
def cmd_help (st : CHState) (player : String) : CHState × List Effect :=
  (st, [Effect.exec ("tell " ++ player ++ " " ++ helpText)])

/-! ## The command dispatcher (lines 191–200) -/

/-- The text of the `TypeError` Python raises when a fixed-arity
handler `cmd_x(self, player)` is called as `handler(player, *args)`
with extra positional arguments.  (The exact wording varies across
Python versions; the dispatch contract only forwards it verbatim into
the generic error message.) -/
def typeErrorStr (command : String) (args : List String) : String :=
  "cmd_" ++ command ++ "() takes 2 positional arguments but " ++
    toString (args.length + 2) ++ " were given"

/-- The call `handler(player, *args)` for each of the eleven `cmd_*`
methods of `CommandHandler`, or `none` when `getattr` finds no such
method.  `tpa`, `setwarp` and `warp` are declared `(self, player,
*args)` and accept any argument list; the other eight are declared
`(self, player)` and raise `TypeError` before their body runs when
extra positional arguments are supplied.  `.error` is any exception
escaping the call. -/
def callHandler (st : CHState) (player command : String) (args : List String)
    (now : Int) (rx rz : Int) : Option (Except String (CHState × List Effect)) :=
  match command with
  | "tpa" => some (.ok (cmd_tpa st player args now))
  | "tpaccept" =>
    some (if args.isEmpty then .ok (cmd_tpaccept st player)
          else .error (typeErrorStr command args))
  | "tpdeny" =>
    some (if args.isEmpty then .ok (cmd_tpdeny st player)
          else .error (typeErrorStr command args))
  | "sethome" =>
    some (if args.isEmpty then .ok (cmd_sethome st player)
          else .error (typeErrorStr command args))
  | "home" =>
    some (if args.isEmpty then .ok (cmd_home st player)
          else .error (typeErrorStr command args))
  | "setwarp" => some (.ok (cmd_setwarp st player args))
  | "warp" => some (.ok (cmd_warp st player args))
  | "warps" =>
    some (if args.isEmpty then .ok (cmd_warps st player)
          else .error (typeErrorStr command args))
  | "spawn" =>
    some (if args.isEmpty then cmd_spawn st player
          else .error (typeErrorStr command args))
  | "rtp" =>
    some (if args.isEmpty then .ok (cmd_rtp st player rx rz)
          else .error (typeErrorStr command args))
  | "help" =>
    some (if args.isEmpty then .ok (cmd_help st player)
          else .error (typeErrorStr command args))
  | _ => none

/-- `handle_command(self, player, command, args)`: look the handler up;
no handler replies "unknown command"; an exception raised by the
handler call is caught and turned into the generic error message.  The
function is total: no exception escapes the dispatcher. -/
def handle_command (st : CHState) (player command : String) (args : List String)
    (now : Int) (rx rz : Int) : CHState × List Effect :=
  match callHandler st player command args now rx rz with
  | none => (st, [Effect.msg player ("§cUnknown command: ." ++ command)])
  | some (.ok res) => res
  | some (.error e) => (st, [Effect.msg player ("§cError: " ++ e)])

/-! ## Lemmas about the dict embedding -/

theorem alookup_aset_self {v : Type} (k : String) (x : v) (l : List (String × v)) :
    alookup k (aset k x l) = some x := by
  induction l with
  | nil => simp [aset, alookup]
  | cons p l ih =>
    by_cases h : p.1 = k
    · simp [aset, alookup, h]
    · simp [aset, alookup, h, ih]

theorem alookup_aset_ne {v : Type} {k k' : String} (x : v) (l : List (String × v))
    (h : k' ≠ k) : alookup k' (aset k x l) = alookup k' l := by
  induction l with
  | nil => simp [aset, alookup, Ne.symm h]
  | cons p l ih =>
    by_cases hp : p.1 = k
    · simp [aset, alookup, hp, Ne.symm h]
    · simp [aset, alookup, hp, ih]

theorem aerase_cons {v : Type} (k : String) (p : String × v) (l : List (String × v)) :
    aerase k (p :: l) = if p.1 = k then aerase k l else p :: aerase k l := by
  by_cases hp : p.1 = k <;> simp [aerase, hp]

theorem alookup_aerase_self {v : Type} (k : String) (l : List (String × v)) :
    alookup k (aerase k l) = none := by
  induction l with
  | nil => simp [aerase, alookup]
  | cons p l ih =>
    rw [aerase_cons]
    by_cases hp : p.1 = k
    · simpa [hp] using ih
    · simp [alookup, hp, ih]

theorem alookup_aerase_ne {v : Type} {k k' : String} (l : List (String × v))
    (h : k' ≠ k) : alookup k' (aerase k l) = alookup k' l := by
  induction l with
  | nil => simp [aerase, alookup]
  | cons p l ih =>
    rw [aerase_cons]
    by_cases hp : p.1 = k
    · simp [alookup, hp, Ne.symm h, ih]
    · simp [alookup, hp, ih]

theorem alookup_eq_none_of_not_mem {v : Type} {k : String} {l : List (String × v)}
    (h : k ∉ l.map Prod.fst) : alookup k l = none := by
  induction l with
  | nil => simp [alookup]
  | cons p l ih =>
    simp only [List.map_cons, List.mem_cons, not_or] at h
    simp [alookup, Ne.symm h.1, ih h.2]

theorem alookup_isSome_of_mem {v : Type} {k : String} {l : List (String × v)}
    (h : k ∈ l.map Prod.fst) : alookup k l ≠ none := by
  induction l with
  | nil => simp at h
  | cons p l ih =>
    by_cases hp : p.1 = k
    · simp [alookup, hp]
    · simp only [List.map_cons, List.mem_cons] at h
      rcases h with h | h
      · exact absurd h.symm hp
      · simp [alookup, hp, ih h]

theorem alookup_of_nodup_mem {v : Type} {l : List (String × v)} {p : String × v}
    (hnd : (l.map Prod.fst).Nodup) (hm : p ∈ l) : alookup p.1 l = some p.2 := by
  induction l with
  | nil => simp at hm
  | cons q l ih =>
    rcases List.mem_cons.1 hm with h | h
    · subst h; simp [alookup]
    · have hq : q.1 ≠ p.1 := by
        intro he
        have : q.1 ∈ l.map Prod.fst := he ▸ List.mem_map_of_mem Prod.fst h
        exact (List.nodup_cons.1 hnd).1 this
      simp [alookup, hq, ih (List.nodup_cons.1 hnd).2 h]

theorem aerase_keys_sublist {v : Type} (k : String) (l : List (String × v)) :
    ((aerase k l).map Prod.fst).Sublist (l.map Prod.fst) :=
  List.Sublist.map Prod.fst (List.filter_sublist l)

/-! ## Claim C1 -/

/-- C1 counterexample: the two patterns of `handle_output` are tested
by two independent `if` statements, so a chat command whose argument
text embeds a position-response fragment produces BOTH a chat-command
event and a position-response event — not zero or one with the first
match winning, as the claim states. -/
theorem c1_counterexample :
    (classify "<Alice> .w Bob has the following entity data: [1d, 2d, 3d]").length = 2 ∧
    classify "<Alice> .w Bob has the following entity data: [1d, 2d, 3d]" =
      [Event.chatCommand "Alice" "w"
         ["Bob", "has", "the", "following", "entity", "data:", "[1d,", "2d,", "3d]"],
       Event.positionResponse "Bob" "1" "2" "3"] :=
  ⟨rfl, rfl⟩

/-- C1 (amended): for every input line the classifier produces at most
one event per pattern family — at most two in total, the chat-command
event first — and a line matching both patterns yields both events,
not only the chat-command one; a line matching neither yields no
event. -/
theorem c1_corrected (line : String) :
    (classify line).length ≤ 2 ∧
    (∀ p c a q x y z, searchChat line = some (p, c, a) →
      searchPos line = some (q, x, y, z) →
      classify line =
        [Event.chatCommand p c (pyArgs a), Event.positionResponse q x y z]) ∧
    (searchChat line = none → searchPos line = none → classify line = []) := by
  refine ⟨?_, ?_, ?_⟩
  · rcases hc : searchChat line with _ | ⟨⟨p, c, a⟩⟩ <;>
      rcases hp : searchPos line with _ | ⟨⟨q, x, y, z⟩⟩ <;>
        simp [classify, hc, hp]
  · intro p c a q x y z hc hp
    simp [classify, hc, hp]
  · intro hc hp
    simp [classify, hc, hp]

/-- C1 witness: the amended theorem applied to the dual-match line. -/
theorem c1_corrected_witness :
    classify "<Alice> .w Bob has the following entity data: [1d, 2d, 3d]" =
      [Event.chatCommand "Alice" "w"
         (pyArgs (some "Bob has the following entity data: [1d, 2d, 3d]")),
       Event.positionResponse "Bob" "1" "2" "3"] :=
  (c1_corrected "<Alice> .w Bob has the following entity data: [1d, 2d, 3d]").2.1
    "Alice" "w" (some "Bob has the following entity data: [1d, 2d, 3d]")
    "Bob" "1" "2" "3" rfl rfl

/-! ## Claim C2 -/

/-- C2: when a player is simultaneously in `pending_homes` and in
`pending_warps`, a position response for that player resolves the home
track — home record written, pending-home membership removed,
`save_homes` issued, confirmation sent — and the pending-warp entry
(and the warp store) are left unchanged: the home track is the `if`
tested before the warp track's `elif`. -/
theorem c2_home_before_warp (st : CHState) (player x y z w : String)
    (hh : player ∈ st.pending_homes)
    (hw : alookup player st.pending_warps = some w) :
    (handlePosition st player x y z).1.homes
        = aset player (x ++ " " ++ y ++ " " ++ z) st.homes ∧
    alookup player (handlePosition st player x y z).1.homes
        = some (x ++ " " ++ y ++ " " ++ z) ∧
    player ∉ (handlePosition st player x y z).1.pending_homes ∧
    (handlePosition st player x y z).1.pending_warps = st.pending_warps ∧
    alookup player (handlePosition st player x y z).1.pending_warps = some w ∧
    (handlePosition st player x y z).1.warps = st.warps ∧
    (handlePosition st player x y z).2 =
      [Effect.saveHomes,
       Effect.msg player ("§aHome set at §eX:" ++ x ++ " §aY:" ++ y ++ " §aZ:" ++ z)] := by
  have hps : handlePosition st player x y z =
      ({ st with
          homes := aset player (x ++ " " ++ y ++ " " ++ z) st.homes,
          pending_homes := sremove player st.pending_homes },
        [Effect.saveHomes,
         Effect.msg player ("§aHome set at §eX:" ++ x ++ " §aY:" ++ y ++ " §aZ:" ++ z)]) := by
    simp only [handlePosition, if_pos hh]
  rw [hps]
  refine ⟨rfl, alookup_aset_self _ _ _, ?_, rfl, hw, rfl, rfl⟩
  simp [sremove]

/-- C2 witness: concrete state with player `Steve` pending on both
tracks. -/
theorem c2_home_before_warp_witness :
    alookup "Steve"
      (handlePosition ⟨[], [("spawn", spawn_point)], ["Steve"], [("Steve", "town")], []⟩
        "Steve" "1" "2" "3").1.homes = some ("1" ++ " " ++ "2" ++ " " ++ "3") ∧
    (handlePosition ⟨[], [("spawn", spawn_point)], ["Steve"], [("Steve", "town")], []⟩
        "Steve" "1" "2" "3").1.pending_warps = [("Steve", "town")] :=
  ⟨(c2_home_before_warp ⟨[], [("spawn", spawn_point)], ["Steve"], [("Steve", "town")], []⟩
      "Steve" "1" "2" "3" "town" (by decide) (by decide)).2.1,
   (c2_home_before_warp ⟨[], [("spawn", spawn_point)], ["Steve"], [("Steve", "town")], []⟩
      "Steve" "1" "2" "3" "town" (by decide) (by decide)).2.2.2.1⟩

/-! ## Claim C9 -/

/-- Discriminator for chat-command events. -/
def isChatEvent : Event → Bool
  | .chatCommand _ _ _ => true
  | .positionResponse _ _ _ _ => false

/-- C9: every line on which the chat-command pattern matches produces
exactly one chat-command event, whose arguments are the whitespace
split of the captured argument text, and the empty list when no
argument text was captured. -/
theorem c9_extraction (line p c : String) (a : Option String)
    (h : searchChat line = some (p, c, a)) :
    (classify line).filter isChatEvent = [Event.chatCommand p c (pyArgs a)] ∧
    pyArgs none = [] ∧
    (∀ s, a = some s → pyArgs a = pySplit s) := by
  refine ⟨?_, rfl, ?_⟩
  · rcases hp : searchPos line with _ | ⟨⟨q, x, y, z⟩⟩ <;>
      simp [classify, h, hp, isChatEvent]
  · rintro s rfl
    by_cases hs : s.isEmpty
    · have he : s = "" := (String.isEmpty_iff s).1 hs
      subst he
      rfl
    · simp [pyArgs, hs]

/-- C9 witness: a chat line with arguments and one with none. -/
theorem c9_extraction_witness :
    (classify "<Steve> .tpa Alex").filter isChatEvent =
      [Event.chatCommand "Steve" "tpa" (pyArgs (some "Alex"))] ∧
    (classify "<Steve> .sethome").filter isChatEvent =
      [Event.chatCommand "Steve" "sethome" (pyArgs none)] :=
  ⟨(c9_extraction "<Steve> .tpa Alex" "Steve" "tpa" (some "Alex") rfl).1,
   (c9_extraction "<Steve> .sethome" "Steve" "sethome" none rfl).1⟩

/-! ## Claim C3 -/

/-- C3: `cmd_tpa` fails when requester = target; fails (state
unchanged, stored request untouched) when the target already has a
pending request from the same requester; otherwise stores
`(requester, now)` under the target — replacing any request from a
different requester, touching no other key and no other state — and
notifies both parties. -/
theorem c3_tpa_request (st : CHState) (player target : String) (rest : List String)
    (now : Int) :
    (target = player →
      cmd_tpa st player (target :: rest) now =
        (st, [Effect.msg player "§cYou cannot teleport to yourself!"])) ∧
    (target ≠ player →
      ∀ t0, alookup target st.tpa_requests = some (player, t0) →
        cmd_tpa st player (target :: rest) now =
          (st, [Effect.msg player
            ("§cYou already have a pending request to " ++ target ++ "!")])) ∧
    (target ≠ player →
      (∀ t0, alookup target st.tpa_requests ≠ some (player, t0)) →
      (cmd_tpa st player (target :: rest) now).1.tpa_requests
          = aset target (player, now) st.tpa_requests ∧
      alookup target (cmd_tpa st player (target :: rest) now).1.tpa_requests
          = some (player, now) ∧
      (∀ k, k ≠ target →
        alookup k (cmd_tpa st player (target :: rest) now).1.tpa_requests
          = alookup k st.tpa_requests) ∧
      (cmd_tpa st player (target :: rest) now).1.homes = st.homes ∧
      (cmd_tpa st player (target :: rest) now).1.warps = st.warps ∧
      (cmd_tpa st player (target :: rest) now).1.pending_homes = st.pending_homes ∧
      (cmd_tpa st player (target :: rest) now).1.pending_warps = st.pending_warps ∧
      (cmd_tpa st player (target :: rest) now).2 =
        [Effect.msg player ("§aTeleport request sent to " ++ target ++ "!"),
         Effect.msg target ("§e" ++ player ++
           " §ahas requested to teleport to you. Use §e.tpaccept §aor §e.tpdeny")]) := by
  refine ⟨?_, ?_, ?_⟩
  · intro h
    simp [cmd_tpa, h]
  · intro h t0 hl
    simp [cmd_tpa, h, hl]
  · intro h hl
    have key : cmd_tpa st player (target :: rest) now =
        ({ st with tpa_requests := aset target (player, now) st.tpa_requests },
          [Effect.msg player ("§aTeleport request sent to " ++ target ++ "!"),
           Effect.msg target ("§e" ++ player ++
             " §ahas requested to teleport to you. Use §e.tpaccept §aor §e.tpdeny")]) := by
      rcases he : alookup target st.tpa_requests with _ | ⟨r, t0⟩
      · simp [cmd_tpa, h, he]
      · have hr : r ≠ player := by
          intro hre
          exact hl t0 (by rw [he, hre])
        simp [cmd_tpa, h, he, hr]
    rw [key]
    exact ⟨rfl, alookup_aset_self _ _ _, fun k hk => alookup_aset_ne _ _ hk,
      rfl, rfl, rfl, rfl, rfl⟩

/-- C3 witness: self-request, duplicate request, and a replacing
request, each at concrete inputs. -/
theorem c3_tpa_request_witness :
    cmd_tpa ⟨[], [], [], [], []⟩ "A" ["A"] 0 =
      (⟨[], [], [], [], []⟩, [Effect.msg "A" "§cYou cannot teleport to yourself!"]) ∧
    cmd_tpa ⟨[], [], [], [], [("B", ("A", 5))]⟩ "A" ["B"] 9 =
      (⟨[], [], [], [], [("B", ("A", 5))]⟩,
       [Effect.msg "A" ("§cYou already have a pending request to " ++ "B" ++ "!")]) ∧
    alookup "B" (cmd_tpa ⟨[], [], [], [], [("B", ("C", 5))]⟩ "A" ["B"] 9).1.tpa_requests
      = some ("A", 9) :=
  ⟨(c3_tpa_request ⟨[], [], [], [], []⟩ "A" "A" [] 0).1 rfl,
   (c3_tpa_request ⟨[], [], [], [], [("B", ("A", 5))]⟩ "A" "B" [] 9).2.1
     (by decide) 5 (by decide),
   ((c3_tpa_request ⟨[], [], [], [], [("B", ("C", 5))]⟩ "A" "B" [] 9).2.2
     (by decide)
     (by intro t0 hcontra; simp [alookup] at hcontra)).2.1⟩

/-! ## Claim C4 -/

/-- C4: `cmd_tpaccept` and `cmd_tpdeny` fail with the no-pending
message and change nothing exactly when the map holds no entry for the
target; otherwise each removes the entry (other keys untouched) and
notifies both parties, and accept additionally issues the
`tp requester target` command through the bridge. -/
theorem c4_accept_deny (st : CHState) (player : String) :
    (alookup player st.tpa_requests = none →
      cmd_tpaccept st player =
        (st, [Effect.msg player "§cNo pending teleport requests!"]) ∧
      cmd_tpdeny st player =
        (st, [Effect.msg player "§cNo pending teleport requests!"])) ∧
    (∀ requester t0, alookup player st.tpa_requests = some (requester, t0) →
      alookup player (cmd_tpaccept st player).1.tpa_requests = none ∧
      (∀ k, k ≠ player →
        alookup k (cmd_tpaccept st player).1.tpa_requests
          = alookup k st.tpa_requests) ∧
      (cmd_tpaccept st player).2 =
        [Effect.exec ("tp " ++ requester ++ " " ++ player),
         Effect.msg player ("§aAccepted " ++ requester ++ "'s teleport request!"),
         Effect.msg requester ("§e" ++ player ++ " §ahas accepted your teleport request!")] ∧
      alookup player (cmd_tpdeny st player).1.tpa_requests = none ∧
      (∀ k, k ≠ player →
        alookup k (cmd_tpdeny st player).1.tpa_requests
          = alookup k st.tpa_requests) ∧
      (cmd_tpdeny st player).2 =
        [Effect.msg player ("§cDenied " ++ requester ++ "'s teleport request!"),
         Effect.msg requester ("§e" ++ player ++ " §cdenied your teleport request!")]) := by
  constructor
  · intro h
    constructor <;> simp [cmd_tpaccept, cmd_tpdeny, h]
  · intro requester t0 h
    have ha : cmd_tpaccept st player =
        ({ st with tpa_requests := aerase player st.tpa_requests },
          [Effect.exec ("tp " ++ requester ++ " " ++ player),
           Effect.msg player ("§aAccepted " ++ requester ++ "'s teleport request!"),
           Effect.msg requester ("§e" ++ player ++ " §ahas accepted your teleport request!")]) := by
      simp [cmd_tpaccept, h]
    have hd : cmd_tpdeny st player =
        ({ st with tpa_requests := aerase player st.tpa_requests },
          [Effect.msg player ("§cDenied " ++ requester ++ "'s teleport request!"),
           Effect.msg requester ("§e" ++ player ++ " §cdenied your teleport request!")]) := by
      simp [cmd_tpdeny, h]
    rw [ha, hd]
    exact ⟨alookup_aerase_self _ _, fun k hk => alookup_aerase_ne _ hk, rfl,
      alookup_aerase_self _ _, fun k hk => alookup_aerase_ne _ hk, rfl⟩

/-- C4 witness: failure on the empty consent map, success on a map
holding a request for target `T` from requester `R`. -/
theorem c4_accept_deny_witness :
    cmd_tpaccept ⟨[], [], [], [], []⟩ "T" =
      (⟨[], [], [], [], []⟩, [Effect.msg "T" "§cNo pending teleport requests!"]) ∧
    alookup "T" (cmd_tpaccept ⟨[], [], [], [], [("T", ("R", 3))]⟩ "T").1.tpa_requests
      = none ∧
    (cmd_tpaccept ⟨[], [], [], [], [("T", ("R", 3))]⟩ "T").2 =
      [Effect.exec ("tp " ++ "R" ++ " " ++ "T"),
       Effect.msg "T" ("§aAccepted " ++ "R" ++ "'s teleport request!"),
       Effect.msg "R" ("§e" ++ "T" ++ " §ahas accepted your teleport request!")] :=
  ⟨((c4_accept_deny ⟨[], [], [], [], []⟩ "T").1 rfl).1,
   ((c4_accept_deny ⟨[], [], [], [], [("T", ("R", 3))]⟩ "T").2 "R" 3 rfl).1,
   ((c4_accept_deny ⟨[], [], [], [], [("T", ("R", 3))]⟩ "T").2 "R" 3 rfl).2.2.1⟩

/-! ## Claim C5 -/

/-- The two expiry notices sent for one expired entry
`(target, (requester, timestamp))`, requester first. -/
def sweepMsgs (r : String × (String × Int)) : List Effect :=
  [Effect.msg r.2.1 ("§cYour TPA request to " ++ r.1 ++ " has expired."),
   Effect.msg r.1 ("§cTPA request from " ++ r.2.1 ++ " has expired.")]

theorem foldl_aerase_eq_filter {v : Type} (ks : List String) (l : List (String × v)) :
    ks.foldl (fun acc k => aerase k acc) l = l.filter (fun p => decide (p.1 ∉ ks)) := by
  induction ks generalizing l with
  | nil => simp
  | cons k ks ih =>
    rw [List.foldl_cons, ih, aerase, List.filter_filter]
    apply List.filter_congr
    intro p _
    by_cases h1 : p.1 = k <;> by_cases h2 : p.1 ∈ ks <;> simp [h1, h2]

theorem sweep_foldl_spec (rs : List (String × (String × Int))) :
    ∀ (l : List (String × (String × Int))) (es : List Effect),
      (rs.map Prod.fst).Nodup →
      (∀ r ∈ rs, alookup r.1 l = some r.2) →
      (rs.map Prod.fst).foldl sweepStep (l, es) =
        ((rs.map Prod.fst).foldl (fun acc k => aerase k acc) l,
         es ++ rs.flatMap sweepMsgs) := by
  induction rs with
  | nil => intro l es _ _; simp
  | cons r rs ih =>
    intro l es hnd hl
    rw [List.map_cons] at hnd
    have hnd' := List.nodup_cons.1 hnd
    have h1 : alookup r.1 l = some r.2 := hl r (List.mem_cons_self r rs)
    have hstep : sweepStep (l, es) r.1 = (aerase r.1 l, es ++ sweepMsgs r) := by
      simp [sweepStep, h1, sweepMsgs]
    rw [List.map_cons, List.foldl_cons, List.foldl_cons, hstep]
    rw [ih (aerase r.1 l) (es ++ sweepMsgs r) hnd'.2 ?_]
    · simp
    · intro q hq
      have hne : q.1 ≠ r.1 := by
        intro he
        exact hnd'.1 (he ▸ List.mem_map_of_mem Prod.fst hq)
      rw [alookup_aerase_ne _ hne]
      exact hl q (List.mem_cons_of_mem _ hq)

/-- C5: one run of the sweep body removes exactly the requests whose
age `now - timestamp` strictly exceeds the 30-unit timeout, keeps
every younger (or exactly 30-unit-old) request, and emits the two
expiry notices (requester's first) for each removed request; the loop
sleeps `sweep_interval = 10` time units between runs. -/
theorem c5_sweep (reqs : List (String × (String × Int))) (now : Int)
    (hnd : (reqs.map Prod.fst).Nodup) :
    (check_tpa_timeouts_once reqs now).1
        = reqs.filter (fun r => decide (now - r.2.2 ≤ 30)) ∧
    (check_tpa_timeouts_once reqs now).2
        = (reqs.filter (fun r => decide (now - r.2.2 > 30))).flatMap sweepMsgs ∧
    tpa_timeout = 30 ∧ sweep_interval = 10 := by
  have hexp : (((reqs.filter (tpaExpired now)).map Prod.fst)).Nodup :=
    List.Nodup.sublist (List.Sublist.map Prod.fst (List.filter_sublist reqs)) hnd
  have hlk : ∀ r ∈ reqs.filter (tpaExpired now), alookup r.1 reqs = some r.2 :=
    fun r hr => alookup_of_nodup_mem hnd (List.mem_of_mem_filter hr)
  unfold check_tpa_timeouts_once
  rw [sweep_foldl_spec _ _ _ hexp hlk]
  refine ⟨?_, ?_, rfl, rfl⟩
  · rw [foldl_aerase_eq_filter]
    apply List.filter_congr
    intro r hr
    by_cases h : (30 : Int) < now - r.2.2
    · have hmem : r.1 ∈ (reqs.filter (tpaExpired now)).map Prod.fst :=
        List.mem_map_of_mem _ (List.mem_filter.2 ⟨hr, by simp [tpaExpired, tpa_timeout, h]⟩)
      simp [hmem, not_le.mpr h]
    · have hnot : r.1 ∉ (reqs.filter (tpaExpired now)).map Prod.fst := by
        intro hmem
        rcases List.mem_map.1 hmem with ⟨q, hq, hq1⟩
        have hq2 := List.mem_filter.1 hq
        have hqr : q = r := List.inj_on_of_nodup_map hnd hq2.1 hr hq1
        rw [hqr] at hq2
        have : (30 : Int) < now - r.2.2 := by
          simpa [tpaExpired, tpa_timeout] using hq2.2
        exact h this
      simp [hnot, not_lt.1 h]
  · have : reqs.filter (tpaExpired now)
        = reqs.filter (fun r => decide (now - r.2.2 > 30)) := by
      apply List.filter_congr
      intro r _
      simp [tpaExpired, tpa_timeout]
    simp [this]

/-- C5 witness: at time 100 with timeout 30, requests aged 100 and 50
expire (both parties notified, in insertion order), the request aged
exactly 30 stays. -/
theorem c5_sweep_witness :
    (check_tpa_timeouts_once
        [("A", ("R1", 0)), ("B", ("R2", 50)), ("C", ("R3", 70))] 100).1
      = [("C", ("R3", 70))] ∧
    (check_tpa_timeouts_once
        [("A", ("R1", 0)), ("B", ("R2", 50)), ("C", ("R3", 70))] 100).2
      = [Effect.msg "R1" ("§cYour TPA request to " ++ "A" ++ " has expired."),
         Effect.msg "A" ("§cTPA request from " ++ "R1" ++ " has expired."),
         Effect.msg "R2" ("§cYour TPA request to " ++ "B" ++ " has expired."),
         Effect.msg "B" ("§cTPA request from " ++ "R2" ++ " has expired.")] :=
  ⟨(c5_sweep [("A", ("R1", 0)), ("B", ("R2", 50)), ("C", ("R3", 70))] 100 (by decide)).1,
   (c5_sweep [("A", ("R1", 0)), ("B", ("R2", 50)), ("C", ("R3", 70))] 100 (by decide)).2.1⟩

/-! ## Claim C6 -/

/-- A stored position string is canonical when it splits into exactly
three fields whose space-join is the string itself — the shape
`f"{x} {y} {z}"` has for every record the code writes. -/
def canonPosB (pos : String) : Bool :=
  match pySplit pos with
  | [x, y, z] => (x ++ " " ++ y ++ " " ++ z) == pos
  | _ => false

theorem canonPos_spec {pos : String} (h : canonPosB pos = true) :
    ∃ x y z, pySplit pos = [x, y, z] ∧ x ++ " " ++ y ++ " " ++ z = pos := by
  unfold canonPosB at h
  split at h
  · next x y z heq => exact ⟨x, y, z, heq, by simpa using h⟩
  · simp at h

/-- The warp entries that `save_warps` actually writes: everything but
a `spawn` entry still holding the configured default. -/
def keptWarps (warps : List (String × String)) : List (String × String) :=
  warps.filter (fun p => decide (¬ (p.1 = "spawn" ∧ p.2 = spawn_point)))

theorem not_mem_keys_filter {v : Type} {k : String} {l : List (String × v)}
    (q : String × v → Bool) (h : k ∉ l.map Prod.fst) :
    k ∉ (l.filter q).map Prod.fst :=
  fun hm => h (List.Sublist.subset (List.Sublist.map Prod.fst (List.filter_sublist l)) hm)

theorem loadRowsInto_cons (row : List String) (rows : List (List String))
    (acc : List (String × String)) :
    loadRowsInto (row :: rows) acc = loadRowsInto rows (loadRow acc row) := by
  simp [loadRowsInto]

theorem loadRowsInto_save (warps : List (String × String)) :
    ∀ (rows : List (List String)) (acc : List (String × String)) (k : String),
      save_warps_rows warps = some rows →
      (warps.map Prod.fst).Nodup →
      (∀ p ∈ warps, pyLower p.1 = p.1) →
      (∀ p ∈ warps, canonPosB p.2 = true) →
      alookup k (loadRowsInto rows acc) =
        Option.or (alookup k (keptWarps warps)) (alookup k acc) := by
  induction warps with
  | nil =>
    intro rows acc k hrows _ _ _
    simp only [save_warps_rows, Option.some.injEq] at hrows
    subst hrows
    simp [loadRowsInto, keptWarps, alookup, Option.or]
  | cons p rest ih =>
    intro rows acc k hrows hnd hlow hcanon
    obtain ⟨name, pos⟩ := p
    rw [List.map_cons] at hnd
    have hnd' := List.nodup_cons.1 hnd
    have hlow' : ∀ q ∈ rest, pyLower q.1 = q.1 :=
      fun q hq => hlow q (List.mem_cons_of_mem _ hq)
    have hcanon' : ∀ q ∈ rest, canonPosB q.2 = true :=
      fun q hq => hcanon q (List.mem_cons_of_mem _ hq)
    by_cases hskip : name = "spawn" ∧ pos = spawn_point
    · simp only [save_warps_rows, if_pos hskip] at hrows
      have hkept : keptWarps ((name, pos) :: rest) = keptWarps rest := by
        simp [keptWarps, hskip]
      rw [hkept]
      exact ih rows acc k hrows hnd'.2 hlow' hcanon'
    · simp only [save_warps_rows, if_neg hskip] at hrows
      obtain ⟨x, y, z, hsplit, hjoin⟩ :=
        canonPos_spec (hcanon (name, pos) (List.mem_cons_self _ _))
      rw [hsplit] at hrows
      rcases hsv : save_warps_rows rest with _ | rows'
      · rw [hsv] at hrows
        simp at hrows
      · rw [hsv] at hrows
        simp only [Option.map_some', Option.some.injEq] at hrows
        subst hrows
        rw [loadRowsInto_cons]
        have hstep : loadRow acc [name, x, y, z] = aset name pos acc := by
          have hl := hlow (name, pos) (List.mem_cons_self _ _)
          simp only [loadRow]
          rw [hl, hjoin]
        rw [hstep, ih rows' (aset name pos acc) k hsv hnd'.2 hlow' hcanon']
        have hkept : keptWarps ((name, pos) :: rest)
            = (name, pos) :: keptWarps rest := by
          unfold keptWarps
          rw [List.filter_cons, if_pos (by simp [hskip])]
        rw [hkept]
        by_cases hk : name = k
        · subst hk
          have h1 : alookup name (keptWarps rest) = none :=
            alookup_eq_none_of_not_mem (not_mem_keys_filter _ hnd'.1)
          rw [h1, alookup_aset_self]
          simp [alookup, Option.or]
        · rw [alookup_aset_ne _ _ (Ne.symm hk)]
          simp [alookup, hk]

theorem alookup_keptWarps (warps : List (String × String)) (k : String) :
    (warps.map Prod.fst).Nodup →
    alookup k (keptWarps warps) =
      if k = "spawn" ∧ alookup "spawn" warps = some spawn_point then none
      else alookup k warps := by
  induction warps with
  | nil =>
    intro _
    simp [keptWarps, alookup]
  | cons p rest ih =>
    intro hnd
    obtain ⟨name, pos⟩ := p
    rw [List.map_cons] at hnd
    have hnd' := List.nodup_cons.1 hnd
    by_cases hskip : name = "spawn" ∧ pos = spawn_point
    · have hkept : keptWarps ((name, pos) :: rest) = keptWarps rest := by
        simp [keptWarps, hskip]
      rw [hkept, ih hnd'.2]
      obtain ⟨hn, hp⟩ := hskip
      subst hn
      subst hp
      have hnone : alookup "spawn" rest = none :=
        alookup_eq_none_of_not_mem hnd'.1
      by_cases hk : k = "spawn"
      · subst hk
        simp [alookup, hnone]
      · simp [alookup, hk, Ne.symm hk]
    · have hkept : keptWarps ((name, pos) :: rest)
          = (name, pos) :: keptWarps rest := by
        unfold keptWarps
        rw [List.filter_cons, if_pos (by simp [hskip])]
      rw [hkept]
      by_cases hk : name = k
      · subst hk
        by_cases hn : name = "spawn"
        · subst hn
          have hps : pos ≠ spawn_point := fun he => hskip ⟨rfl, he⟩
          simp [alookup, hps]
        · simp [alookup, hn]
      · rw [show alookup k ((name, pos) :: keptWarps rest)
            = alookup k (keptWarps rest) from by simp [alookup, hk]]
        rw [ih hnd'.2]
        by_cases hks : k = "spawn"
        · subst hks
          have hstep : alookup "spawn" ((name, pos) :: rest)
              = alookup "spawn" rest := by
            simp [alookup, hk]
          rw [hstep]
        · simp [alookup, hks, hk]

/-- C6: for every warp dict whose entries are as the code writes them
(distinct lower-case keys, canonical `"x y z"` positions), saving and
re-loading reproduces exactly the same key→position mapping, except
that a `spawn` entry equal to the configured default is not written
and the default is re-supplied on load whenever `spawn` is absent from
the file. -/
theorem c6_roundtrip (warps : List (String × String)) (rows : List (List String))
    (hrows : save_warps_rows warps = some rows)
    (hnd : (warps.map Prod.fst).Nodup)
    (hlow : ∀ p ∈ warps, pyLower p.1 = p.1)
    (hcanon : ∀ p ∈ warps, canonPosB p.2 = true) (k : String) :
    alookup k (load_warps_from rows) =
      if k = "spawn" ∧ alookup "spawn" warps = none then some spawn_point
      else alookup k warps := by
  have hload : ∀ k', alookup k' (loadRowsInto rows [])
      = alookup k' (keptWarps warps) := by
    intro k'
    rw [loadRowsInto_save warps rows [] k' hrows hnd hlow hcanon]
    cases alookup k' (keptWarps warps) <;> simp [alookup, Option.or]
  have hsp : alookup "spawn" (loadRowsInto rows []) =
      if alookup "spawn" warps = some spawn_point then none
      else alookup "spawn" warps := by
    rw [hload "spawn", alookup_keptWarps warps "spawn" hnd]
    by_cases hc : alookup "spawn" warps = some spawn_point <;> simp [hc]
  rcases hsc : alookup "spawn" (loadRowsInto rows []) with _ | v0 <;>
    simp only [load_warps_from, hsc]
  · rcases hw : alookup "spawn" warps with _ | v
    · by_cases hk : k = "spawn"
      · subst hk
        rw [alookup_aset_self]
        simp [hw]
      · rw [alookup_aset_ne _ _ hk, hload k, alookup_keptWarps warps k hnd]
        simp [hk]
    · have hv : v = spawn_point := by
        by_contra hne
        rw [hsp, hw] at hsc
        simp [hne] at hsc
      subst hv
      by_cases hk : k = "spawn"
      · subst hk
        rw [alookup_aset_self]
        simp [hw]
      · rw [alookup_aset_ne _ _ hk, hload k, alookup_keptWarps warps k hnd]
        simp [hk]
  · have hcond : ¬ alookup "spawn" warps = some spawn_point := by
      intro hc
      rw [hsp] at hsc
      simp [hc] at hsc
    have halw : alookup "spawn" warps = some v0 := by
      rw [hsp] at hsc
      simpa [hcond] using hsc
    have hv0 : v0 ≠ spawn_point := fun he => hcond (he ▸ halw)
    rw [hload k, alookup_keptWarps warps k hnd]
    simp [halw, hv0]

/-- C6 witness: warps `spawn ↦ default, town ↦ "1 2 3"`; only the
`town` row is written; both entries survive the round trip. -/
theorem c6_roundtrip_witness :
    alookup "town" (load_warps_from [["town", "1", "2", "3"]]) = some "1 2 3" ∧
    alookup "spawn" (load_warps_from [["town", "1", "2", "3"]]) = some spawn_point :=
  ⟨c6_roundtrip [("spawn", spawn_point), ("town", "1 2 3")] [["town", "1", "2", "3"]]
      (by decide) (by decide) (by decide) (by decide) "town",
   c6_roundtrip [("spawn", spawn_point), ("town", "1 2 3")] [["town", "1", "2", "3"]]
      (by decide) (by decide) (by decide) (by decide) "spawn"⟩

/-! ## Claim C7 -/

/-- C7: `cmd_setwarp` captures the lower-cased name; the next position
response for that player (not pending on the home track) stores the
coordinates under that lower-cased key; and a later `cmd_warp` with
any casing of the same name lower-cases its argument and so resolves
to the stored coordinate, issuing the teleport. -/
theorem c7_warp_case_insensitive (st : CHState)
    (player caller name variant x y z : String)
    (hcase : pyLower variant = pyLower name)
    (hph : player ∉ st.pending_homes) :
    alookup (pyLower name)
      (handlePosition (cmd_setwarp st player [name]).1 player x y z).1.warps
      = some (x ++ " " ++ y ++ " " ++ z) ∧
    cmd_warp (handlePosition (cmd_setwarp st player [name]).1 player x y z).1
        caller [variant]
      = ((handlePosition (cmd_setwarp st player [name]).1 player x y z).1,
         [Effect.exec ("tp " ++ caller ++ " " ++ (x ++ " " ++ y ++ " " ++ z)),
          Effect.msg caller ("§aTeleported to warp '" ++ pyLower variant ++ "'!")]) := by
  have hst1 : (cmd_setwarp st player [name]).1 =
      { st with pending_warps := aset player (pyLower name) st.pending_warps } := by
    simp [cmd_setwarp]
  have hph1 : player ∉ (cmd_setwarp st player [name]).1.pending_homes := by
    rw [hst1]
    exact hph
  have hlk : alookup player (cmd_setwarp st player [name]).1.pending_warps
      = some (pyLower name) := by
    rw [hst1]
    exact alookup_aset_self _ _ _
  have hhp : handlePosition (cmd_setwarp st player [name]).1 player x y z =
      ({ (cmd_setwarp st player [name]).1 with
          warps := aset (pyLower name) (x ++ " " ++ y ++ " " ++ z)
            (cmd_setwarp st player [name]).1.warps,
          pending_warps := aerase player (cmd_setwarp st player [name]).1.pending_warps },
        [Effect.saveWarps,
         Effect.msg player ("§aWarp '" ++ pyLower name ++ "' set at §eX:" ++ x ++
           " §aY:" ++ y ++ " §aZ:" ++ z)]) := by
    simp [handlePosition, hph1, hlk]
  have hwlk : alookup (pyLower name)
      (handlePosition (cmd_setwarp st player [name]).1 player x y z).1.warps
      = some (x ++ " " ++ y ++ " " ++ z) := by
    rw [hhp]
    exact alookup_aset_self _ _ _
  refine ⟨hwlk, ?_⟩
  have hlk2 : alookup (pyLower variant)
      (handlePosition (cmd_setwarp st player [name]).1 player x y z).1.warps
      = some (x ++ " " ++ y ++ " " ++ z) := by
    rw [hcase]
    exact hwlk
  simp [cmd_warp, hlk2]

/-- C7 witness: `setwarp Town` by `P`, position response, then
`warp TOWN` by `Q` teleports `Q` to the stored coordinates. -/
theorem c7_warp_case_insensitive_witness :
    cmd_warp (handlePosition (cmd_setwarp ⟨[], [], [], [], []⟩ "P" ["Town"]).1
        "P" "1" "2" "3").1 "Q" ["TOWN"]
      = ((handlePosition (cmd_setwarp ⟨[], [], [], [], []⟩ "P" ["Town"]).1
          "P" "1" "2" "3").1,
         [Effect.exec ("tp " ++ "Q" ++ " " ++ ("1" ++ " " ++ "2" ++ " " ++ "3")),
          Effect.msg "Q" ("§aTeleported to warp '" ++ pyLower "TOWN" ++ "'!")]) :=
  (c7_warp_case_insensitive ⟨[], [], [], [], []⟩ "P" "Q" "Town" "TOWN" "1" "2" "3"
    (by decide) (by decide)).2

/-! ## Claim C8 -/

/-- C8: the dispatcher replies "unknown command" (state unchanged)
whenever no handler is registered for the name, and converts any
exception escaping a handler call into the generic error message
(state unchanged) — `handle_command` is total, so no exception
propagates past the dispatch boundary. -/
theorem c8_dispatch (st : CHState) (player command : String) (args : List String)
    (now rx rz : Int) :
    (callHandler st player command args now rx rz = none →
      handle_command st player command args now rx rz =
        (st, [Effect.msg player ("§cUnknown command: ." ++ command)])) ∧
    (∀ e, callHandler st player command args now rx rz = some (.error e) →
      handle_command st player command args now rx rz =
        (st, [Effect.msg player ("§cError: " ++ e)])) := by
  constructor
  · intro h
    simp [handle_command, h]
  · intro e h
    simp [handle_command, h]

/-- C8 witness: unregistered command `.fly`, and a handler call that
raises (`.home` with a stray argument). -/
theorem c8_dispatch_witness :
    handle_command ⟨[], [], [], [], []⟩ "P" "fly" [] 0 0 0 =
      (⟨[], [], [], [], []⟩, [Effect.msg "P" ("§cUnknown command: ." ++ "fly")]) ∧
    handle_command ⟨[], [], [], [], []⟩ "P" "home" ["x"] 0 0 0 =
      (⟨[], [], [], [], []⟩, [Effect.msg "P" ("§cError: " ++ typeErrorStr "home" ["x"])]) :=
  ⟨(c8_dispatch ⟨[], [], [], [], []⟩ "P" "fly" [] 0 0 0).1 rfl,
   (c8_dispatch ⟨[], [], [], [], []⟩ "P" "home" ["x"] 0 0 0).2
     (typeErrorStr "home" ["x"]) rfl⟩

/-! ## Claim C10 -/

/-- C10: each handler declared `cmd_x(self, player)` — home, sethome,
tpaccept, tpdeny, warps, spawn, rtp, help — called with one or more
arguments raises `TypeError` before its body runs; the dispatcher
catches it, sends the generic error message, and the whole state
(homes, warps, pending sets, consent map) is returned unchanged. -/
theorem c10_fixed_arity (st : CHState) (player command : String) (args : List String)
    (now rx rz : Int)
    (hc : command ∈ ["home", "sethome", "tpaccept", "tpdeny",
      "warps", "spawn", "rtp", "help"])
    (ha : args ≠ []) :
    handle_command st player command args now rx rz =
      (st, [Effect.msg player ("§cError: " ++ typeErrorStr command args)]) := by
  obtain ⟨a, as, rfl⟩ := List.exists_cons_of_ne_nil ha
  fin_cases hc <;> rfl

/-- C10 witness: `.home extra` leaves the state untouched and yields
only the generic error message. -/
theorem c10_fixed_arity_witness :
    handle_command ⟨[], [], [], [], []⟩ "P" "home" ["extra"] 0 0 0 =
      (⟨[], [], [], [], []⟩,
       [Effect.msg "P" ("§cError: " ++ typeErrorStr "home" ["extra"])]) :=
  c10_fixed_arity ⟨[], [], [], [], []⟩ "P" "home" ["extra"] 0 0 0
    (by decide) (by decide)
